import Mathlib

/-
Verification development for the `eesampling` stratified-sampling library
(`src/eesampling/eesampling/model.py`, class `StratifiedSampling`).

The embedding is shallow:
* a pandas dataframe is a `DF`: a column-name list plus a list of rows, each
  row an identifier plus an association list of integer column values (float
  arithmetic is out of scope; all claims here are structural);
* the numpy global random generator is an explicit `Rng` state threaded
  through the functions that touch it, with `np.random.seed` modelled as
  replacing that state by a state derived from the seed alone;
* the mutable `self` of `StratifiedSampling` is a `Model` record passed in
  and returned;
* raised exceptions are `Except PyErr` results;
* pandas object identity (which dataframe object a method mutates or
  allocates) is modelled separately by a small heap of dataframes, used by
  the frame-effect development near the end of the file.

`bins.py` and `diagnostics.py` of the repository are not available, only
`model.py`; the definitions for `Binning`, `BinnedData` and `sample_bins`
below are therefore modelled from the spec and say so in their doc comments.
-/

namespace EESampling

/-- One row of a dataframe: a row identifier (the pandas index label) and an
association list of column values. -/
structure Row where
  rid : Nat
  vals : List (String × Int)
deriving Repr, DecidableEq

/-- Value of column `c` in row `r` (0 if the column is absent; the pipeline
only reads columns that are present). -/
def Row.get (r : Row) (c : String) : Int :=
  (r.vals.lookup c).getD 0

/-- Row with column `c` set to `v`; every other column keeps its value. -/
def Row.set (r : Row) (c : String) (v : Int) : Row :=
  { r with vals := (c, v) :: r.vals.filter (fun p => p.1 ≠ c) }

@[simp] theorem Row.rid_set (r : Row) (c : String) (v : Int) : (r.set c v).rid = r.rid := rfl

/-- A dataframe: its column names (present even when there are no rows, as in
pandas) and its rows. -/
structure DF where
  cols : List String
  rows : List Row
deriving Repr, DecidableEq

def DF.emptyDF : DF := ⟨[], []⟩

/-- The Python exceptions that the modelled code can raise. -/
inductive PyErr where
  | valueError (msg : String)
  | nameError (nm : String)
  | attributeError (nm : String)
deriving Repr, DecidableEq

deriving instance DecidableEq for Except

/-- One entry of `self.columns`: the per-covariate configuration dict built by
`StratifiedSampling.add_column`. -/
structure ColumnSpec where
  name : String
  auto_bin : Bool
  n_bins : Int
  min_value_allowed : Option Int
  max_value_allowed : Option Int
  fixed_width : Bool
  auto_bin_require_equivalence : Bool
deriving Repr, DecidableEq

/-- One fitted column of a `Binning`. Modelled from the spec: `bins.py` is not
under src/; the spec says the Binner computes, per covariate, bin edges from
the (perturbed, non-outlier) training values and the requested bin count. We
record exactly those inputs; the bin index of a value is a function of them
(`binIndexOf` below). -/
structure FittedCol where
  name : String
  values : List Int
  n_bins : Int
  fixed_width : Bool
deriving Repr, DecidableEq

/-- Modelled from the spec: the `Binning` object of `bins.py` (fitted on train
only), one fitted entry per covariate, in fit order. -/
structure Binning where
  fitted : List FittedCol
deriving Repr, DecidableEq

/-- `Binning().bin(values, name, n_bins, fixed_width)`: record the fit of one
covariate. Modelled from the spec (`bins.py` is not under src/): the
degenerate-input BinningError conditions of the real Binner are not modelled;
no claim depends on them. -/
def Binning.bin (b : Binning) (values : List Int) (nm : String) (nBins : Int)
    (fixedWidth : Bool) : Binning :=
  ⟨b.fitted ++ [⟨nm, values, nBins, fixedWidth⟩]⟩

/-- Modelled from the spec: the bin index of value `v` under one fitted
covariate. Values outside the fitted value range are out-of-range (`none`,
spec section 4.2); in-range values get an empirical-quantile rank index. The
exact edge arithmetic lives in `bins.py` (not under src/); the claims use only
that this is a deterministic function of the fitted data. -/
def binIndexOf (fc : FittedCol) (v : Int) : Option Int :=
  match fc.values.min?, fc.values.max? with
  | some lo, some hi =>
    if v < lo ∨ hi < v then none
    else
      let below := (fc.values.filter (fun w => decide (w < v))).length
      some (Int.ofNat (min (fc.n_bins.toNat - 1)
        (below * fc.n_bins.toNat / fc.values.length)))
  | _, _ => none

/-- Modelled from the spec: the bin-combination key of a row is the tuple of
per-covariate bin indices; a row whose value is out of range for any fitted
covariate has no key (it is flagged outlier and excluded from bin counts). -/
def keyOf (b : Binning) (r : Row) : Option (List Int) :=
  b.fitted.mapM (fun fc => binIndexOf fc (r.get fc.name))

/-- Modelled from the spec: `BinnedData` of `bins.py` wraps a dataframe plus
the fitted `Binning` (and the `min_n_train_per_bin` threshold), exposing
per-bin-combination row counts and subsets through `keyOf`. -/
structure BinnedData where
  df : DF
  binning : Binning
  min_n_train_per_bin : Nat
deriving Repr, DecidableEq

def BinnedData.emptyData : BinnedData := ⟨DF.emptyDF, ⟨[]⟩, 0⟩

/-- The mutable state of a `StratifiedSampling` object. `col_names` is an
`Option` because the Python attribute does not exist until the first
`add_column` call (`__init__` never sets it), and `_check_columns_present`
reads it with `getattr(self, "col_names")` and no default. `predicted` and
`binning` are likewise first set by `add_column`; no claim distinguishes
their absent and set-to-initial states, so they carry plain initial values. -/
structure Model where
  columns : List (String × ColumnSpec)
  trained : Bool
  sampled : Bool
  predicted : Bool
  binning : Option Binning
  col_names : Option (List String)
  data_train : Option BinnedData
  data_test : Option BinnedData
  data_sample : Option BinnedData
deriving Repr, DecidableEq

/-- `StratifiedSampling.__init__`. -/
def Model.init : Model :=
  { columns := [], trained := false, sampled := false, predicted := false,
    binning := none, col_names := none,
    data_train := none, data_test := none, data_sample := none }

/-- Python-dict insertion: overwrite in place when the key exists (keeping its
position), append otherwise. -/
def upsert (l : List (String × ColumnSpec)) (k : String) (v : ColumnSpec) :
    List (String × ColumnSpec) :=
  if l.any (fun p => decide (p.1 = k)) then
    l.map (fun p => if p.1 = k then (k, v) else p)
  else l ++ [(k, v)]

/-- `StratifiedSampling.add_column(name, n_bins, min_value_allowed,
max_value_allowed, fixed_width, auto_bin_require_equivalence)`: `auto_bin`
is `n_bins is None` and the stored count defaults to 1; the call resets
`binning`, `trained`, `predicted` and recomputes `col_names`. -/
def add_column (m : Model) (nm : String) (nBinsArg : Option Int)
    (minValueAllowed maxValueAllowed : Option Int)
    (fixedWidth requireEquiv : Bool) : Model :=
  let auto_bin := nBinsArg.isNone
  let n_bins := nBinsArg.getD 1
  let cols := upsert m.columns nm
    { name := nm, auto_bin := auto_bin, n_bins := n_bins,
      min_value_allowed := minValueAllowed, max_value_allowed := maxValueAllowed,
      fixed_width := fixedWidth, auto_bin_require_equivalence := requireEquiv }
  { m with columns := cols, binning := none, trained := false,
           predicted := false, col_names := some (cols.map Prod.fst) }

/-- `StratifiedSampling.get_n_bins(col_name)`; `none` models the Python
`KeyError` on an unregistered name. -/
def get_n_bins (m : Model) (colName : String) : Option Int :=
  (m.columns.lookup colName).map ColumnSpec.n_bins

/-- `StratifiedSampling.set_n_bins(col_name, n_bins)` (no-op on an
unregistered name, which in Python would be a `KeyError`; the loop only calls
it on registered names). -/
def set_n_bins (m : Model) (colName : String) (n : Int) : Model :=
  { m with columns := m.columns.map (fun p =>
      if p.1 == colName then (p.1, { p.2 with n_bins := n }) else p) }

/-- `StratifiedSampling._check_columns_present(df)`. Faithful to the source:
`getattr(self, "col_names")` raises `AttributeError` when the attribute was
never set (it is only set by `add_column`); an empty `col_names` list is
falsy and raises the no-columns `ValueError`; otherwise the set difference of
registered names and dataframe columns is reported in a `ValueError`. -/
def check_columns_present (colNamesAttr : Option (List String))
    (dfCols : List String) : Except PyErr Unit :=
  match colNamesAttr with
  | none => Except.error (PyErr.attributeError "col_names")
  | some cn =>
    if cn.isEmpty then
      Except.error (PyErr.valueError
        "No columns found in model. Use add_columns(...) to add a column.")
    else
      let missing := (cn.filter (fun c => !(dfCols.contains c))).dedup
      if missing.isEmpty then Except.ok ()
      else Except.error (PyErr.valueError
        ("data is missing required columns: " ++ String.intercalate "," missing))

/-- The length-zero guard at the top of `fit_and_sample`. -/
def fit_and_sample_precheck (m : Model) : Except PyErr Unit :=
  if m.columns.length = 0 then
    Except.error (PyErr.valueError "You must add at least one column before fitting.")
  else Except.ok ()

/-- True when row `r` violates a configured bound of covariate `c` (strictly
below `min_value_allowed` or strictly above `max_value_allowed`), i.e. lies
outside the closed interval kept by `_chop_outliers`. -/
def rowOutside (c : ColumnSpec) (r : Row) : Bool :=
  (match c.min_value_allowed with
   | some lo => decide (r.get c.name < lo)
   | none => false) ||
  (match c.max_value_allowed with
   | some hi => decide (hi < r.get c.name)
   | none => false)

/-- One iteration of the column loop of `_chop_outliers`: keep the rows with
value at least `min_value_allowed` (when set), then the rows with value at
most `max_value_allowed` (when set). -/
def chopCol (c : ColumnSpec) (df : DF) : DF :=
  let df1 :=
    match c.min_value_allowed with
    | some lo => { df with rows := df.rows.filter (fun r => decide (lo ≤ r.get c.name)) }
    | none => df
  match c.max_value_allowed with
  | some hi => { df1 with rows := df1.rows.filter (fun r => decide (r.get c.name ≤ hi)) }
  | none => df1

/-- `StratifiedSampling._chop_outliers(df)`: filter by every registered
covariate's configured bounds, in registration order. -/
def chop_outliers (columns : List (String × ColumnSpec)) (df : DF) : DF :=
  columns.foldl (fun df p => chopCol p.2 df) df

/-- The global numpy random generator state. -/
abbrev Rng := Nat

/-- `np.random.seed(seed)`: the state after seeding is a function of the seed
alone (the previous global state is discarded). -/
def rngOfSeed (seed : Nat) : Rng := seed

/-- Stand-in for the `i`-th draw of `np.random.random` scaled by
`(u - 0.5) * 1e-6`: a deterministic integer in `[-1, 1]` as a function of the
generator state and the draw index. Float arithmetic is not modelled; the
claims use only determinism and the shape of the data flow. -/
def drawAt (g : Rng) (i : Nat) : Int :=
  Int.ofNat ((g + i) % 3) - 1

/-- `df_pert[col_name].max() - df_pert[col_name].min()`. -/
def colRange (df : DF) (c : String) : Int :=
  let vs := df.rows.map (fun r => r.get c)
  (vs.max?.getD 0) - (vs.min?.getD 0)

/-- The vectorized `df_pert[col_name] + perturbation`: row `i` gets noise
`drawAt g i * range`. -/
def perturbRows (c : String) (g : Rng) (range : Int) : Nat → List Row → List Row
  | _, [] => []
  | i, r :: rs => r.set c (r.get c + drawAt g i * range) :: perturbRows c g range (i + 1) rs

/-- One iteration of the column loop of `_perturb`: add seeded noise, scaled
by the column's value range, to every value of column `c`, consuming
`df.rows.length` draws from the generator. -/
def perturbCol (df : DF) (c : String) (g : Rng) : DF × Rng :=
  let range := colRange df c
  ({ df with rows := perturbRows c g range 0 df.rows }, g + df.rows.length)

/-- `StratifiedSampling._perturb(df_orig, col_names, random_seed)`. The first
statement of the source is `np.random.seed(random_seed)`, so the incoming
global generator state `_gIn` is discarded; the copy of `df_orig` and the
per-column noise are then computed from the seeded stream. -/
def perturb (colNames : List String) (randomSeed : Nat) (df : DF) (_gIn : Rng) :
    DF × Rng :=
  colNames.foldl (fun (acc : DF × Rng) c => perturbCol acc.1 c acc.2)
    (df, rngOfSeed randomSeed)

/-- The `_outlier_value` flag computed by the two bound-marking loops of
`fit`: true when any registered covariate's (perturbed) value is strictly
below its `min_value_allowed` or strictly above its `max_value_allowed`. -/
def outlierFlagVal (columns : List (String × ColumnSpec)) (r : Row) : Bool :=
  columns.any (fun p =>
    (match p.2.min_value_allowed with
     | some lo => decide (r.get p.2.name < lo)
     | none => false) ||
    (match p.2.max_value_allowed with
     | some hi => decide (hi < r.get p.2.name)
     | none => false))

/-- The value of `self.df_train` after `fit`'s `_outlier_value` marking: the
perturbed frame extended with the flag column (the column creation and the
two bound-marking loops, collapsed into the resulting frame value). -/
def dfTrainFlagged (m : Model) (dfT : DF) : DF :=
  { cols := dfT.cols ++ ["_outlier_value"],
    rows := dfT.rows.map (fun r =>
      r.set "_outlier_value" (if outlierFlagVal m.columns r then 1 else 0)) }

/-- The covariate loop of `fit` that calls `self.binning.bin(values, ...)` for
every registered column, where `values` are the column's entries over the
rows not flagged `_outlier_value`. -/
def fitBinning (columns : List (String × ColumnSpec)) (dfTrain : DF) : Binning :=
  columns.foldl (fun b p =>
    b.bin (dfTrain.rows.filterMap (fun r =>
        if r.get "_outlier_value" = 0 then some (r.get p.2.name) else none))
      p.2.name p.2.n_bins p.2.fixed_width) ⟨[]⟩

/-- `StratifiedSampling.fit(df_train, min_n_train_per_bin, random_seed)`:
check columns, chop outliers, perturb, copy to `self.df_train`, mark the
`_outlier_value` column, fit the `Binning` on the unflagged values of each
covariate, build `data_train`, set `trained`. -/
def fitM (m : Model) (df : DF) (minNTrainPerBin : Nat) (seed : Nat) (gIn : Rng) :
    Except PyErr (Model × Rng) :=
  match check_columns_present m.col_names df.cols with
  | Except.error e => Except.error e
  | Except.ok _ =>
    Except.ok ({ m with
      binning := some (fitBinning m.columns (dfTrainFlagged m
        ((perturb (m.columns.map Prod.fst) seed (chop_outliers m.columns df) gIn).1))),
      data_train := some ⟨dfTrainFlagged m
          ((perturb (m.columns.map Prod.fst) seed (chop_outliers m.columns df) gIn).1),
        fitBinning m.columns (dfTrainFlagged m
          ((perturb (m.columns.map Prod.fst) seed (chop_outliers m.columns df) gIn).1)),
        minNTrainPerBin⟩,
      trained := true },
      (perturb (m.columns.map Prod.fst) seed (chop_outliers m.columns df) gIn).2)

/-- A seeded draw of `k` rows without replacement from `l`: rotate the list by
a seed-determined offset and take a prefix. Modelled from the spec
(`bins.py` is not under src/): the spec requires a deterministic,
duplicate-free selection from the bin's rows given the caller's seed. -/
def seededTake (seed : Nat) (k : Nat) (l : List Row) : List Row :=
  (l.rotate (seed % max l.length 1)).take k

/-- Stand-in for Python `round(p_k * n)` over rationals `num/den`. -/
def pyRound (num den : Nat) : Nat := (num + den / 2) / den

/-- Modelled from the spec: the number of train rows whose bin-combination key
is `k` (`bins.py` is not under src/). -/
def keyCount (train : BinnedData) (k : List Int) : Nat :=
  (train.df.rows.filter (fun r => keyOf train.binning r == some k)).length

/-- Modelled from the spec: the eligible train bin-combination keys — keys
present in train (outlier rows have no key), excluding bins with fewer than
`min_n_train_per_bin` rows (spec section 4.3 step 1). -/
def eligibleKeys (train : BinnedData) : List (List Int) :=
  ((train.df.rows.filterMap (keyOf train.binning)).dedup).filter
    (fun k => decide (train.min_n_train_per_bin ≤ keyCount train k))

/-- Modelled from the spec: the test rows available in one bin combination. -/
def testRowsFor (test : BinnedData) (k : List Int) : List Row :=
  test.df.rows.filter (fun r => keyOf test.binning r == some k)

/-- Modelled from the spec: the per-key draw target — the key's train share of
`n_samples_approx` when that is given (spec section 4.3 step 2), otherwise the
proportional scale-up until some test bin's availability becomes the binding
constraint. -/
def targetFor (train test : BinnedData) (nApprox : Option Nat) (k : List Int) : Nat :=
  let total := ((eligibleKeys train).map (keyCount train)).sum
  match nApprox with
  | some n => pyRound (keyCount train k * n) (max total 1)
  | none =>
    let scaleNum := ((eligibleKeys train).map (fun k2 =>
      (testRowsFor test k2).length * max total 1 / max (keyCount train k2) 1)).min?.getD 0
    keyCount train k * scaleNum / max total 1

/-- Modelled from the spec: the capacity-capped, seeded without-replacement
draw for every eligible key (spec section 4.3 steps 3 and 5). -/
def drawsFor (train test : BinnedData) (nApprox : Option Nat) (seed : Nat) :
    List (List Row) :=
  (eligibleKeys train).map (fun k =>
    seededTake seed (min (targetFor train test nApprox k) (testRowsFor test k).length)
      (testRowsFor test k))

/-- Modelled from the spec: `sample_bins(data_train, data_test,
n_samples_approx, relax_n_samples_approx_constraint, random_seed)` of
`bins.py`, which is not under src/. The concatenation of the per-key draws is
returned; in strict mode (`relax` false) a realized total short of
`n_samples_approx` is an `InsufficientSamplesError` (spec section 4.3
step 4). -/
def sample_bins (train test : BinnedData) (nApprox : Option Nat) (relax : Bool)
    (seed : Nat) : Except PyErr DF :=
  match nApprox with
  | some n =>
    if relax = false ∧ ((drawsFor train test nApprox seed).map List.length).sum < n then
      Except.error (PyErr.valueError
        "InsufficientSamplesError: not enough comparison pool rows to reach n_samples_approx")
    else Except.ok { cols := test.df.cols, rows := (drawsFor train test nApprox seed).flatten }
  | none => Except.ok { cols := test.df.cols, rows := (drawsFor train test nApprox seed).flatten }

/-- The `data_test` built by `sample`: the chopped and perturbed test frame,
labelled by the binning fitted on train. -/
def sampleDataTest (m : Model) (df : DF) (seed : Nat) (gIn : Rng) : BinnedData :=
  ⟨(perturb (m.columns.map Prod.fst) seed (chop_outliers m.columns df) gIn).1,
   m.binning.getD ⟨[]⟩, 0⟩

/-- `StratifiedSampling.sample(df_test, n_samples_approx, random_seed,
relax_n_samples_approx_constraint)`. The guard of the source is
`if not self.trained and data_train is not None:`; the name `data_train` is
not defined at module level, so when `self.trained` is false the evaluation
of the second conjunct raises `NameError` before the guarded `ValueError`
line can run, and when `self.trained` is true the conjunction short-circuits
to false and the call proceeds. -/
def sampleM (m : Model) (df : DF) (nApprox : Option Nat) (seed : Nat)
    (relax : Bool) (gIn : Rng) : Except PyErr (Model × Rng) :=
  if m.trained = false then Except.error (PyErr.nameError "data_train")
  else
    match check_columns_present m.col_names df.cols with
    | Except.error e => Except.error e
    | Except.ok _ =>
      match sample_bins (m.data_train.getD BinnedData.emptyData)
          (sampleDataTest m df seed gIn) nApprox relax seed with
      | Except.error e => Except.error e
      | Except.ok dfS =>
        Except.ok ({ m with data_test := some (sampleDataTest m df seed gIn),
                            data_sample := some ⟨dfS, m.binning.getD ⟨[]⟩, 0⟩,
                            sampled := true },
          (perturb (m.columns.map Prod.fst) seed (chop_outliers m.columns df) gIn).2)

/-- The result of one iteration of the auto-binning while-loop of
`fit_and_sample`: whether the loop flag `completed` ends the iteration true
(CONVERGED) or false (still TUNING), and the covariate's bin count after the
iteration's `set_n_bins` updates. -/
structure LoopOutcome where
  completed : Bool
  nBins : Int
deriving Repr, DecidableEq

/-- The body of the auto-binning while-loop of `fit_and_sample` (source lines
166 to 184), after the iteration's `fit` and `sample` calls, as a function of
the observations of that iteration: `requireEquiv` is
`col["auto_bin_require_equivalence"]`, `sampleEmpty` is
`self.data_sample.df.empty`, `equivPassed` is
`self.diagnostics().equivalence_passed([col["name"]])` (the spec's pluggable
equivalence predicate; `diagnostics.py` is not under src/),
`minRatioTruthy` is the truthiness of `min_n_sampled_to_n_train_ratio`, and
`ratioBelowFloor` is the comparison inside `_violates_ratio`. `nBins` is the
covariate's bin count entering the iteration. -/
def auto_bin_step (colName : String) (requireEquiv sampleEmpty equivPassed
    minRatioTruthy ratioBelowFloor : Bool) (nBins : Int) :
    Except PyErr LoopOutcome :=
  if requireEquiv then
    if sampleEmpty then
      Except.error (PyErr.valueError
        ("Too many bin divisions before finding equivalence for " ++ colName ++
         " (usually occurs when several stratification params are used)."))
    else
      let completed := equivPassed
      let violates := minRatioTruthy && ratioBelowFloor
      let completed1 := if violates then true else completed
      let nBins1 := if violates then nBins - 1 else nBins
      let nBins2 := if completed1 = false then nBins1 + 1 else nBins1
      Except.ok ⟨completed1, nBins2⟩
  else
    if minRatioTruthy && ratioBelowFloor then Except.ok ⟨true, nBins - 1⟩
    else Except.ok ⟨false, nBins + 1⟩

/-- The `data_train` of the model state after a successful `fit` (`none` when
`fit` raises). -/
def fit_data_train (m : Model) (df : DF) (minN seed : Nat) (g : Rng) :
    Option BinnedData :=
  match fitM m df minN seed g with
  | Except.ok p => p.1.data_train
  | Except.error _ => none

/-- The `data_test` of the model state after a successful `sample`. -/
def sample_data_test (m : Model) (df : DF) (nApprox : Option Nat) (seed : Nat)
    (relax : Bool) (g : Rng) : Option BinnedData :=
  match sampleM m df nApprox seed relax g with
  | Except.ok p => p.1.data_test
  | Except.error _ => none

/-- The `data_sample` of the model state after a successful `sample`. -/
def sample_data_sample (m : Model) (df : DF) (nApprox : Option Nat) (seed : Nat)
    (relax : Bool) (g : Rng) : Option BinnedData :=
  match sampleM m df nApprox seed relax g with
  | Except.ok p => p.1.data_sample
  | Except.error _ => none

/-- True when `fit` followed by `sample` on a trained model runs to completion
and records a sampled dataset. -/
def fitThenSampleOk (m : Model) (dfTrain dfTest : DF) : Bool :=
  match fitM m dfTrain 0 1 0 with
  | Except.error _ => false
  | Except.ok p =>
    match sampleM p.1 dfTest none 1 false p.2 with
    | Except.error _ => false
    | Except.ok q => q.1.data_sample.isSome

/-! The object-identity view: pandas dataframes live in a heap of objects, and
each pipeline step either allocates a new frame (`df.copy()`, boolean-mask
selection, concatenation) or writes an existing one in place
(`df.loc[...] = ...`). The frame-effect claim is settled against this view. -/

abbrev Handle := Nat

/-- A store of live dataframe objects; `next` is the next fresh handle. -/
structure Heap where
  store : List (Handle × DF)
  next : Handle
deriving Repr, DecidableEq

def Heap.read (h : Heap) (k : Handle) : Option DF := h.store.lookup k

/-- Allocation of a new dataframe object. -/
def Heap.alloc (h : Heap) (df : DF) : Heap × Handle :=
  (⟨(h.next, df) :: h.store, h.next + 1⟩, h.next)

/-- In-place mutation of an existing dataframe object. -/
def Heap.write (h : Heap) (k : Handle) (df : DF) : Heap :=
  ⟨h.store.map (fun p => if p.1 = k then (k, df) else p), h.next⟩

/-- Well-formed heap: every live handle is below `next`. -/
def Heap.WF (h : Heap) : Prop := ∀ p ∈ h.store, p.1 < h.next

instance (h : Heap) : Decidable h.WF := by
  unfold Heap.WF; infer_instance

/-- The invariant carried through the pipeline for the frame-effect claim:
the heap is well formed and the caller's handle `k` still reads as `d`. -/
def HeapInv (k : Handle) (d : DF) (h : Heap) : Prop :=
  h.WF ∧ h.read k = some d

/-- One boolean-mask selection `df[mask]` of `_chop_outliers` in the object
view: it allocates a new frame with the filtered rows. -/
def chopStepH (hp : Heap) (dh : Handle) (keep : Row → Bool) : Heap × Handle :=
  let df := (hp.read dh).getD DF.emptyDF
  hp.alloc { df with rows := df.rows.filter keep }

/-- One column of `_chop_outliers` in the object view: each configured bound
rebinds the local `df` to a freshly allocated filtered frame. -/
def chopColH (acc : Heap × Handle) (p : String × ColumnSpec) : Heap × Handle :=
  let acc1 :=
    match p.2.min_value_allowed with
    | some lo => chopStepH acc.1 acc.2 (fun r => decide (lo ≤ r.get p.2.name))
    | none => acc
  match p.2.max_value_allowed with
  | some hi => chopStepH acc1.1 acc1.2 (fun r => decide (r.get p.2.name ≤ hi))
  | none => acc1

/-- `_chop_outliers` in the object view: the caller's frame is never written,
only filtered copies are allocated. -/
def chop_outliersH (columns : List (String × ColumnSpec)) (hp : Heap)
    (dh : Handle) : Heap × Handle :=
  columns.foldl chopColH (hp, dh)

/-- One column of `_perturb` in the object view:
`df_pert.loc[:, col_name] = df_pert[col_name] + perturbation` writes the
object at handle `ph` in place. -/
def perturbColH (ph : Handle) (acc : Heap × Rng) (c : String) : Heap × Rng :=
  let df := (acc.1.read ph).getD DF.emptyDF
  let dg := perturbCol df c acc.2
  (acc.1.write ph dg.1, dg.2)

/-- `_perturb` in the object view: `df_pert = df_orig.copy()` allocates a
fresh object, and every subsequent in-place write hits only that copy;
`df_orig` is never written. -/
def perturbH (colNames : List String) (seed : Nat) (hp : Heap) (dh : Handle)
    (_gIn : Rng) : Heap × Handle × Rng :=
  let al := hp.alloc ((hp.read dh).getD DF.emptyDF)
  let acc := colNames.foldl (perturbColH al.2) (al.1, rngOfSeed seed)
  (acc.1, al.2, acc.2)

/-- The chop-then-perturb prefix shared by `fit` and `sample` in the object
view: `_perturb(self._chop_outliers(df), random_seed=random_seed)`. -/
def chopPerturbH (m : Model) (hp : Heap) (dh : Handle) (seed : Nat) (gIn : Rng) :
    Heap × Handle × Rng :=
  perturbH (m.columns.map Prod.fst) seed (chop_outliersH m.columns hp dh).1
    (chop_outliersH m.columns hp dh).2 gIn

/-- The tail of `fit` in the object view, after the column check:
`self.df_train = df_train.copy()` allocates a further copy, and the
`_outlier_value` writes mutate only that fresh copy; the `Binning` and
`BinnedData` constructions only read (their value content is `fitM`'s). -/
def fitHFrom (m : Model) (pr : Heap × Handle × Rng) :
    Heap × Except PyErr (Handle × Rng) :=
  ((pr.1.alloc ((pr.1.read pr.2.1).getD DF.emptyDF)).1.write
      (pr.1.alloc ((pr.1.read pr.2.1).getD DF.emptyDF)).2
      (dfTrainFlagged m ((pr.1.read pr.2.1).getD DF.emptyDF)),
   Except.ok ((pr.1.alloc ((pr.1.read pr.2.1).getD DF.emptyDF)).2, pr.2.2))

/-- `fit` in the object view. Returns the heap and, on success, the handle of
`self.df_train`. -/
def fitH (m : Model) (hp : Heap) (dh : Handle) (seed : Nat) (gIn : Rng) :
    Heap × Except PyErr (Handle × Rng) :=
  match check_columns_present m.col_names (((hp.read dh).getD DF.emptyDF).cols) with
  | Except.error e => (hp, Except.error e)
  | Except.ok _ => fitHFrom m (chopPerturbH m hp dh seed gIn)

/-- The tail of `sample` in the object view, after the guard and the column
check: `sample_bins` either raises (no allocation survives) or returns a new
concatenated frame, which is allocated. -/
def sampleHFrom (m : Model) (nApprox : Option Nat) (relax : Bool) (seed : Nat)
    (pr : Heap × Handle × Rng) : Heap × Except PyErr (Handle × Rng) :=
  match sample_bins (m.data_train.getD BinnedData.emptyData)
      ⟨(pr.1.read pr.2.1).getD DF.emptyDF, m.binning.getD ⟨[]⟩, 0⟩ nApprox relax seed with
  | Except.error e => (pr.1, Except.error e)
  | Except.ok dfS =>
    ((pr.1.alloc dfS).1, Except.ok ((pr.1.alloc dfS).2, pr.2.2))

/-- `sample` in the object view: the (buggy) guard, the column check, chop,
perturb, and the allocation of the sampled frame; the caller's frame is never
written. -/
def sampleH (m : Model) (hp : Heap) (dh : Handle) (nApprox : Option Nat)
    (seed : Nat) (relax : Bool) (gIn : Rng) : Heap × Except PyErr (Handle × Rng) :=
  if m.trained = false then (hp, Except.error (PyErr.nameError "data_train"))
  else
    match check_columns_present m.col_names (((hp.read dh).getD DF.emptyDF).cols) with
    | Except.error e => (hp, Except.error e)
    | Except.ok _ => sampleHFrom m nApprox relax seed (chopPerturbH m hp dh seed gIn)

/-! Concrete inputs used by the per-claim evaluation and witness theorems. -/

def mC1 : Model := add_column Model.init "x" (some 2) none none true true

def dfC1 : DF :=
  ⟨["x"], [⟨0, [("x", 1)]⟩, ⟨1, [("x", 3)]⟩, ⟨2, [("x", 6)]⟩, ⟨3, [("x", 9)]⟩]⟩

def mC4 : Model :=
  add_column (add_column Model.init "x" (some 2) none none true true)
    "y" (some 2) none none true true

def dfC4x : DF := ⟨["x"], [⟨0, [("x", 1)]⟩]⟩

def cSpecC7 : ColumnSpec :=
  { name := "x", auto_bin := false, n_bins := 2, min_value_allowed := some 0,
    max_value_allowed := some 10, fixed_width := true,
    auto_bin_require_equivalence := true }

def mC7 : Model := add_column Model.init "x" (some 2) (some 0) (some 10) true true

def dfC7 : DF := ⟨["x"], [⟨0, [("x", 2)]⟩, ⟨1, [("x", 50)]⟩, ⟨2, [("x", 7)]⟩]⟩

def rowC7 : Row := ⟨1, [("x", 50)]⟩

/-- The model of `mC7` after fitting on `dfC7` (trained, so that the `sample`
half of the outlier-exclusion claim is exercised non-vacuously). -/
def mC7t : Model :=
  match fitM mC7 dfC7 0 1 0 with
  | Except.ok p => p.1
  | Except.error _ => mC7

def mC8 : Model := add_column Model.init "x" (some 2) (some 0) (some 10) true true

def dfC8 : DF := ⟨["x"], [⟨0, [("x", 2)]⟩, ⟨1, [("x", 8)]⟩]⟩

def hpC8 : Heap := ⟨[(0, dfC8)], 1⟩

/-! Support lemmas about `upsert` and the dict lookup. -/

theorem lookup_map_overwrite (l : List (String × ColumnSpec)) (k : String)
    (v : ColumnSpec) (h : l.any (fun p => decide (p.1 = k)) = true) :
    (l.map (fun p => if p.1 = k then (k, v) else p)).lookup k = some v := by
  induction l with
  | nil => simp at h
  | cons a t ih =>
    by_cases hak : a.1 = k
    · rw [List.map_cons, if_pos hak]
      simp [List.lookup]
    · have hne : (k == a.1) = false := beq_eq_false_iff_ne.mpr (Ne.symm hak)
      have ht : t.any (fun p => decide (p.1 = k)) = true := by
        simpa [List.any_cons, hak] using h
      rw [List.map_cons, if_neg hak]
      simp [List.lookup, hne, ih ht]

theorem lookup_append_last (l : List (String × ColumnSpec)) (k : String)
    (v : ColumnSpec) (h : l.any (fun p => decide (p.1 = k)) = false) :
    (l ++ [(k, v)]).lookup k = some v := by
  induction l with
  | nil => simp [List.lookup]
  | cons a t ih =>
    simp only [List.any_cons, Bool.or_eq_false_iff] at h
    obtain ⟨h1, ht⟩ := h
    have hak : a.1 ≠ k := by simpa using h1
    have hne : (k == a.1) = false := beq_eq_false_iff_ne.mpr (Ne.symm hak)
    simp [List.lookup, hne, ih ht]

theorem lookup_upsert (l : List (String × ColumnSpec)) (k : String) (v : ColumnSpec) :
    (upsert l k v).lookup k = some v := by
  unfold upsert
  cases hb : l.any (fun p => decide (p.1 = k)) with
  | true =>
    simp only [hb, if_true]
    exact lookup_map_overwrite l k v hb
  | false =>
    simp only [hb, Bool.false_eq_true, if_false]
    exact lookup_append_last l k v hb

/-! Support lemmas about outlier chopping. -/

theorem mem_of_mem_chopCol {c : ColumnSpec} {df : DF} {r : Row}
    (h : r ∈ (chopCol c df).rows) : r ∈ df.rows := by
  unfold chopCol at h
  cases hmin : c.min_value_allowed <;> cases hmax : c.max_value_allowed <;>
    simp only [hmin, hmax] at h
  · exact h
  · exact List.mem_of_mem_filter h
  · exact List.mem_of_mem_filter h
  · exact List.mem_of_mem_filter (List.mem_of_mem_filter h)

theorem rowOutside_false_of_mem_chopCol {c : ColumnSpec} {df : DF} {r : Row}
    (h : r ∈ (chopCol c df).rows) : rowOutside c r = false := by
  unfold chopCol at h
  unfold rowOutside
  cases hmin : c.min_value_allowed <;> cases hmax : c.max_value_allowed <;>
    simp only [hmin, hmax] at h ⊢
  · rfl
  · have h2 := (List.mem_filter.mp h).2
    simp only [decide_eq_true_eq] at h2
    simp [Int.not_lt.mpr h2]
  · have h1 := (List.mem_filter.mp h).2
    simp only [decide_eq_true_eq] at h1
    simp [Int.not_lt.mpr h1]
  · have h2 := (List.mem_filter.mp h).2
    have hmem1 := List.mem_of_mem_filter h
    have h1 := (List.mem_filter.mp hmem1).2
    simp only [decide_eq_true_eq] at h1 h2
    simp [Int.not_lt.mpr h1, Int.not_lt.mpr h2]

theorem mem_of_mem_chop : ∀ (columns : List (String × ColumnSpec)) (df : DF) (r : Row),
    r ∈ (chop_outliers columns df).rows → r ∈ df.rows := by
  intro columns
  induction columns with
  | nil => intro df r h; simpa [chop_outliers] using h
  | cons p t ih =>
    intro df r h
    have h' : r ∈ (chop_outliers t (chopCol p.2 df)).rows := by
      simpa [chop_outliers] using h
    exact mem_of_mem_chopCol (ih _ _ h')

theorem rowOutside_false_of_mem_chop :
    ∀ (columns : List (String × ColumnSpec)) (df : DF) (p : String × ColumnSpec),
    p ∈ columns → ∀ r, r ∈ (chop_outliers columns df).rows → rowOutside p.2 r = false := by
  intro columns
  induction columns with
  | nil => intro df p hp; simp at hp
  | cons q t ih =>
    intro df p hp r h
    have h' : r ∈ (chop_outliers t (chopCol q.2 df)).rows := by
      simpa [chop_outliers] using h
    rcases List.mem_cons.mp hp with rfl | hpt
    · exact rowOutside_false_of_mem_chopCol (mem_of_mem_chop _ _ _ h')
    · exact ih _ _ hpt _ h'

theorem not_mem_chop_of_outside (columns : List (String × ColumnSpec)) (df : DF)
    (p : String × ColumnSpec) (hp : p ∈ columns) (r : Row)
    (hout : rowOutside p.2 r = true) : r ∉ (chop_outliers columns df).rows := by
  intro hmem
  have := rowOutside_false_of_mem_chop columns df p hp r hmem
  rw [this] at hout
  exact Bool.false_ne_true hout

/-! Support lemmas about perturbation: it preserves row identities. -/

theorem map_rid_perturbRows (c : String) (g : Rng) (range : Int) :
    ∀ (i : Nat) (l : List Row),
    (perturbRows c g range i l).map Row.rid = l.map Row.rid := by
  intro i l
  induction l generalizing i with
  | nil => rfl
  | cons r rs ih => simp [perturbRows, ih]

theorem map_rid_perturbCol (df : DF) (c : String) (g : Rng) :
    ((perturbCol df c g).1).rows.map Row.rid = df.rows.map Row.rid := by
  simp [perturbCol, map_rid_perturbRows]

theorem map_rid_perturbFold : ∀ (cs : List String) (df : DF) (g : Rng),
    ((cs.foldl (fun (acc : DF × Rng) c => perturbCol acc.1 c acc.2) (df, g)).1).rows.map
      Row.rid = df.rows.map Row.rid := by
  intro cs
  induction cs with
  | nil => intro df g; rfl
  | cons c t ih =>
    intro df g
    rw [List.foldl_cons]
    have h1 := ih (perturbCol df c g).1 (perturbCol df c g).2
    rw [← map_rid_perturbCol df c g]
    simpa using h1

theorem map_rid_perturb (colNames : List String) (seed : Nat) (df : DF) (g : Rng) :
    ((perturb colNames seed df g).1).rows.map Row.rid = df.rows.map Row.rid := by
  simpa [perturb] using map_rid_perturbFold colNames df (rngOfSeed seed)

theorem map_rid_map_set (l : List Row) (c : String) (f : Row → Int) :
    (l.map (fun r => r.set c (f r))).map Row.rid = l.map Row.rid := by
  induction l with
  | nil => rfl
  | cons r rs ih => simp [ih]

/-! Support lemma: every sampled row is a test row. -/

theorem mem_seededTake {seed k : Nat} {l : List Row} {r : Row}
    (h : r ∈ seededTake seed k l) : r ∈ l := by
  unfold seededTake at h
  exact List.mem_rotate.mp (List.mem_of_mem_take h)

theorem mem_test_of_mem_drawsFor {train test : BinnedData} {nApprox : Option Nat}
    {seed : Nat} {l : List Row} (hl : l ∈ drawsFor train test nApprox seed) :
    ∀ r ∈ l, r ∈ test.df.rows := by
  intro r hr
  rcases List.mem_map.mp hl with ⟨k, _, rfl⟩
  exact List.mem_of_mem_filter (mem_seededTake hr)

theorem sample_bins_ok_rows {train test : BinnedData} {nApprox : Option Nat}
    {relax : Bool} {seed : Nat} {dfS : DF}
    (h : sample_bins train test nApprox relax seed = Except.ok dfS) :
    dfS.rows = (drawsFor train test nApprox seed).flatten := by
  cases nApprox with
  | none =>
    unfold sample_bins at h
    rw [← Except.ok.inj h]
  | some n =>
    simp only [sample_bins] at h
    by_cases hc : relax = false ∧
        ((drawsFor train test (some n) seed).map List.length).sum < n
    · rw [if_pos hc] at h
      exact absurd h (by simp)
    · rw [if_neg hc] at h
      rw [← Except.ok.inj h]

theorem mem_test_of_mem_sample_bins {train test : BinnedData} {nApprox : Option Nat}
    {relax : Bool} {seed : Nat} {dfS : DF}
    (h : sample_bins train test nApprox relax seed = Except.ok dfS) :
    ∀ r ∈ dfS.rows, r ∈ test.df.rows := by
  intro r hr
  rw [sample_bins_ok_rows h] at hr
  rcases List.mem_flatten.mp hr with ⟨l, hl, hrl⟩
  exact mem_test_of_mem_drawsFor hl r hrl

/-! Support lemmas for the object-identity view: allocation and writes at
fresh handles never change what an existing handle reads. -/

theorem lookup_some_mem {l : List (Handle × DF)} {k : Handle} {d : DF}
    (h : l.lookup k = some d) : (k, d) ∈ l := by
  induction l with
  | nil => simp [List.lookup] at h
  | cons a t ih =>
    obtain ⟨ka, va⟩ := a
    by_cases hk : ka = k
    · subst hk
      simp [List.lookup] at h
      rw [h]
      exact List.mem_cons_self _ _
    · have hne : (k == ka) = false := beq_eq_false_iff_ne.mpr (Ne.symm hk)
      simp only [List.lookup, hne] at h
      exact List.mem_cons_of_mem _ (ih h)

theorem Heap.read_lt {h : Heap} {k : Handle} {d : DF} (hwf : h.WF)
    (hr : h.read k = some d) : k < h.next :=
  hwf (k, d) (lookup_some_mem hr)

theorem Heap.read_alloc {h : Heap} {k : Handle} (df : DF) (hk : k < h.next) :
    ((h.alloc df).1).read k = h.read k := by
  have hne : (k == h.next) = false :=
    beq_eq_false_iff_ne.mpr (Nat.ne_of_lt hk)
  simp only [Heap.alloc, Heap.read, List.lookup, hne]

theorem Heap.WF_alloc {h : Heap} (df : DF) (hwf : h.WF) : ((h.alloc df).1).WF := by
  intro p hp
  rcases List.mem_cons.mp hp with rfl | hmem
  · exact Nat.lt_succ_self _
  · exact Nat.lt_trans (hwf p hmem) (Nat.lt_succ_self _)

theorem lookup_map_write (l : List (Handle × DF)) (j : Handle) (df : DF)
    (k : Handle) (hne : k ≠ j) :
    (l.map (fun p => if p.1 = j then (j, df) else p)).lookup k = l.lookup k := by
  induction l with
  | nil => rfl
  | cons a t ih =>
    obtain ⟨ka, va⟩ := a
    by_cases hj : ka = j
    · rw [List.map_cons]
      have hj' : ((ka, va) : Handle × DF).1 = j := hj
      rw [if_pos hj']
      have h1 : (k == j) = false := beq_eq_false_iff_ne.mpr hne
      have h2 : (k == ka) = false := by
        rw [hj]; exact h1
      simp only [List.lookup, h1, h2, ih]
    · rw [List.map_cons]
      have hj' : ¬ ((ka, va) : Handle × DF).1 = j := hj
      rw [if_neg hj']
      by_cases hk : ka = k
      · subst hk
        simp only [List.lookup, beq_self_eq_true]
      · have h2 : (k == ka) = false := beq_eq_false_iff_ne.mpr (Ne.symm hk)
        simp only [List.lookup, h2, ih]

theorem Heap.read_write_ne {h : Heap} {k j : Handle} (df : DF) (hne : k ≠ j) :
    (h.write j df).read k = h.read k :=
  lookup_map_write h.store j df k hne

theorem Heap.WF_write {h : Heap} (j : Handle) (df : DF) (hwf : h.WF) :
    (h.write j df).WF := by
  intro p hp
  rcases List.mem_map.mp hp with ⟨q, hq, rfl⟩
  by_cases h1 : q.1 = j
  · rw [if_pos h1]
    exact h1 ▸ hwf q hq
  · rw [if_neg h1]
    exact hwf q hq

theorem HeapInv.alloc_pres {k : Handle} {d : DF} {h : Heap} (df : DF)
    (hi : HeapInv k d h) : HeapInv k d (h.alloc df).1 :=
  ⟨Heap.WF_alloc df hi.1,
   by rw [Heap.read_alloc df (Heap.read_lt hi.1 hi.2)]; exact hi.2⟩

theorem HeapInv.write_pres {k : Handle} {d : DF} {h : Heap} (j : Handle) (df : DF)
    (hi : HeapInv k d h) (hne : k ≠ j) : HeapInv k d (h.write j df) :=
  ⟨Heap.WF_write j df hi.1, by rw [Heap.read_write_ne df hne]; exact hi.2⟩

theorem chopStepH_inv {k : Handle} {d : DF} {hp : Heap} (dh : Handle)
    (keep : Row → Bool) (hi : HeapInv k d hp) :
    HeapInv k d ((chopStepH hp dh keep).1) ∧
    hp.next ≤ ((chopStepH hp dh keep).1).next :=
  ⟨hi.alloc_pres _, Nat.le_succ _⟩

theorem chopColH_inv {k : Handle} {d : DF} (acc : Heap × Handle)
    (p : String × ColumnSpec) (hi : HeapInv k d acc.1) :
    HeapInv k d ((chopColH acc p).1) ∧ acc.1.next ≤ ((chopColH acc p).1).next := by
  unfold chopColH
  cases hmin : p.2.min_value_allowed with
  | none =>
    cases hmax : p.2.max_value_allowed with
    | none => exact ⟨hi, Nat.le_refl _⟩
    | some hiB => exact chopStepH_inv _ _ hi
  | some lo =>
    cases hmax : p.2.max_value_allowed with
    | none => exact chopStepH_inv _ _ hi
    | some hiB =>
      obtain ⟨hi1, hn1⟩ := chopStepH_inv (k := k) (d := d) acc.2
        (fun r => decide (lo ≤ r.get p.2.name)) hi
      obtain ⟨hi2, hn2⟩ := chopStepH_inv (k := k) (d := d)
        (chopStepH acc.1 acc.2 (fun r => decide (lo ≤ r.get p.2.name))).2
        (fun r => decide (r.get p.2.name ≤ hiB)) hi1
      exact ⟨hi2, Nat.le_trans hn1 hn2⟩

theorem chopH_inv {k : Handle} {d : DF} :
    ∀ (columns : List (String × ColumnSpec)) (hp : Heap) (dh : Handle),
    HeapInv k d hp →
    HeapInv k d ((chop_outliersH columns hp dh).1) ∧
    hp.next ≤ ((chop_outliersH columns hp dh).1).next := by
  intro columns
  induction columns with
  | nil => intro hp dh hi; exact ⟨hi, Nat.le_refl _⟩
  | cons p t ih =>
    intro hp dh hi
    obtain ⟨hi1, hn1⟩ := chopColH_inv (hp, dh) p hi
    obtain ⟨hi2, hn2⟩ := ih (chopColH (hp, dh) p).1 (chopColH (hp, dh) p).2 hi1
    constructor
    · simpa [chop_outliersH] using hi2
    · refine Nat.le_trans hn1 ?_
      simpa [chop_outliersH] using hn2

theorem perturbFold_inv {k : Handle} {d : DF} (ph : Handle) (hne : k ≠ ph) :
    ∀ (cs : List String) (acc : Heap × Rng), HeapInv k d acc.1 →
    HeapInv k d ((cs.foldl (perturbColH ph) acc).1) ∧
    acc.1.next ≤ ((cs.foldl (perturbColH ph) acc).1).next := by
  intro cs
  induction cs with
  | nil => intro acc hi; exact ⟨hi, Nat.le_refl _⟩
  | cons c t ih =>
    intro acc hi
    have hi1 : HeapInv k d ((perturbColH ph acc c).1) :=
      hi.write_pres _ _ hne
    obtain ⟨hi2, hn2⟩ := ih (perturbColH ph acc c) hi1
    exact ⟨by simpa using hi2, by simpa using hn2⟩

theorem perturbH_inv {k : Handle} {d : DF} (colNames : List String) (seed : Nat)
    (hp : Heap) (dh : Handle) (g : Rng) (hi : HeapInv k d hp) :
    HeapInv k d ((perturbH colNames seed hp dh g).1) ∧
    hp.next ≤ ((perturbH colNames seed hp dh g).1).next := by
  have hk : k < hp.next := Heap.read_lt hi.1 hi.2
  have hne : k ≠ (hp.alloc ((hp.read dh).getD DF.emptyDF)).2 := Nat.ne_of_lt hk
  have hi1 : HeapInv k d ((hp.alloc ((hp.read dh).getD DF.emptyDF)).1) :=
    hi.alloc_pres _
  obtain ⟨hi2, hn2⟩ := perturbFold_inv (d := d)
    (hp.alloc ((hp.read dh).getD DF.emptyDF)).2 hne colNames
    ((hp.alloc ((hp.read dh).getD DF.emptyDF)).1, rngOfSeed seed) hi1
  refine ⟨by simpa [perturbH] using hi2, ?_⟩
  have : hp.next ≤ ((hp.alloc ((hp.read dh).getD DF.emptyDF)).1).next := Nat.le_succ _
  refine Nat.le_trans this ?_
  simpa [perturbH] using hn2

theorem chopPerturbH_inv {k : Handle} {d : DF} (m : Model) (hp : Heap)
    (dh : Handle) (seed : Nat) (g : Rng) (hi : HeapInv k d hp) :
    HeapInv k d ((chopPerturbH m hp dh seed g).1) ∧
    hp.next ≤ ((chopPerturbH m hp dh seed g).1).next := by
  obtain ⟨hic, hnc⟩ := chopH_inv m.columns hp dh hi
  obtain ⟨hip, hnp⟩ := perturbH_inv (m.columns.map Prod.fst) seed
    (chop_outliersH m.columns hp dh).1 (chop_outliersH m.columns hp dh).2 g hic
  exact ⟨hip, Nat.le_trans hnc hnp⟩

theorem fitHFrom_inv {k : Handle} {d : DF} (m : Model) (pr : Heap × Handle × Rng)
    (hi : HeapInv k d pr.1) : HeapInv k d ((fitHFrom m pr).1) := by
  have hk : k < pr.1.next := Heap.read_lt hi.1 hi.2
  exact (hi.alloc_pres _).write_pres _ _ (Nat.ne_of_lt hk)

theorem sampleHFrom_inv {k : Handle} {d : DF} (m : Model) (nApprox : Option Nat)
    (relax : Bool) (seed : Nat) (pr : Heap × Handle × Rng)
    (hi : HeapInv k d pr.1) : HeapInv k d ((sampleHFrom m nApprox relax seed pr).1) := by
  unfold sampleHFrom
  split
  · exact hi
  · exact hi.alloc_pres _

theorem fitH_frame {k : Handle} {d : DF} (m : Model) (hp : Heap) (dh : Handle)
    (seed : Nat) (g : Rng) (hi : HeapInv k d hp) :
    HeapInv k d ((fitH m hp dh seed g).1) := by
  unfold fitH
  split
  · exact hi
  · exact fitHFrom_inv m _ (chopPerturbH_inv m hp dh seed g hi).1

theorem sampleH_frame {k : Handle} {d : DF} (m : Model) (hp : Heap) (dh : Handle)
    (nApprox : Option Nat) (seed : Nat) (relax : Bool) (g : Rng)
    (hi : HeapInv k d hp) :
    HeapInv k d ((sampleH m hp dh nApprox seed relax g).1) := by
  unfold sampleH
  split
  · exact hi
  · split
    · exact hi
    · exact sampleHFrom_inv m nApprox relax seed _ (chopPerturbH_inv m hp dh seed g hi).1

/-! Support lemmas for the outlier-exclusion claim: destructuring the model
state after `fit` and `sample`, and the end-to-end row-identity argument. -/

theorem fit_data_train_some (m : Model) (df : DF) (minN seed : Nat) (g : Rng)
    (dt : BinnedData) (h : fit_data_train m df minN seed g = some dt) :
    dt = ⟨dfTrainFlagged m
        ((perturb (m.columns.map Prod.fst) seed (chop_outliers m.columns df) g).1),
      fitBinning m.columns (dfTrainFlagged m
        ((perturb (m.columns.map Prod.fst) seed (chop_outliers m.columns df) g).1)),
      minN⟩ := by
  unfold fit_data_train at h
  split at h
  · rename_i p hp
    unfold fitM at hp
    split at hp
    · exact absurd hp (by simp)
    · rw [← Except.ok.inj hp] at h
      exact (Option.some.inj h).symm
  · exact absurd h (by simp)

theorem sample_data_test_some (m : Model) (df : DF) (nApprox : Option Nat)
    (seed : Nat) (relax : Bool) (g : Rng) (dt : BinnedData)
    (h : sample_data_test m df nApprox seed relax g = some dt) :
    dt = sampleDataTest m df seed g := by
  unfold sample_data_test at h
  split at h
  · rename_i p hp
    unfold sampleM at hp
    split at hp
    · exact absurd hp (by simp)
    · split at hp
      · exact absurd hp (by simp)
      · split at hp
        · exact absurd hp (by simp)
        · rw [← Except.ok.inj hp] at h
          exact (Option.some.inj h).symm
  · exact absurd h (by simp)

theorem sample_data_sample_some (m : Model) (df : DF) (nApprox : Option Nat)
    (seed : Nat) (relax : Bool) (g : Rng) (ds : BinnedData)
    (h : sample_data_sample m df nApprox seed relax g = some ds) :
    ∃ dfS, sample_bins (m.data_train.getD BinnedData.emptyData)
        (sampleDataTest m df seed g) nApprox relax seed = Except.ok dfS ∧
      ds = ⟨dfS, m.binning.getD ⟨[]⟩, 0⟩ := by
  unfold sample_data_sample at h
  split at h
  · rename_i p hp
    unfold sampleM at hp
    split at hp
    · exact absurd hp (by simp)
    · split at hp
      · exact absurd hp (by simp)
      · split at hp
        · exact absurd hp (by simp)
        · rename_i dfS hsb
          refine ⟨dfS, hsb, ?_⟩
          rw [← Except.ok.inj hp] at h
          exact (Option.some.inj h).symm
  · exact absurd h (by simp)

theorem rid_not_mem_pipeline (m : Model) (df : DF) (seed : Nat) (g : Rng)
    (p : String × ColumnSpec) (hp : p ∈ m.columns) (r : Row) (hr : r ∈ df.rows)
    (hout : rowOutside p.2 r = true) (hnd : (df.rows.map Row.rid).Nodup) :
    r.rid ∉ ((perturb (m.columns.map Prod.fst) seed
      (chop_outliers m.columns df) g).1).rows.map Row.rid := by
  rw [map_rid_perturb]
  intro hmem
  rcases List.mem_map.mp hmem with ⟨r2, hr2, hrid⟩
  have hr2df : r2 ∈ df.rows := mem_of_mem_chop _ _ _ hr2
  have heq : r2 = r := List.inj_on_of_nodup_map hnd hr2df hr hrid
  rw [heq] at hr2
  exact not_mem_chop_of_outside m.columns df p hp r hout hr2

theorem map_rid_dfTrainFlagged (m : Model) (dfT : DF) :
    (dfTrainFlagged m dfT).rows.map Row.rid = dfT.rows.map Row.rid :=
  map_rid_map_set _ _ _

theorem fitBinning_values (columns : List (String × ColumnSpec)) (dfTrain : DF) :
    ∀ fc ∈ (fitBinning columns dfTrain).fitted, ∀ v ∈ fc.values,
    ∃ r2 ∈ dfTrain.rows, r2.get "_outlier_value" = 0 ∧ v = r2.get fc.name := by
  have aux : ∀ (cols : List (String × ColumnSpec)) (b0 : Binning),
      (∀ fc ∈ b0.fitted, ∀ v ∈ fc.values,
        ∃ r2 ∈ dfTrain.rows, r2.get "_outlier_value" = 0 ∧ v = r2.get fc.name) →
      ∀ fc ∈ (cols.foldl (fun b p =>
        b.bin (dfTrain.rows.filterMap (fun r =>
            if r.get "_outlier_value" = 0 then some (r.get p.2.name) else none))
          p.2.name p.2.n_bins p.2.fixed_width) b0).fitted,
      ∀ v ∈ fc.values,
      ∃ r2 ∈ dfTrain.rows, r2.get "_outlier_value" = 0 ∧ v = r2.get fc.name := by
    intro cols
    induction cols with
    | nil => intro b0 hb0; simpa using hb0
    | cons p t ih =>
      intro b0 hb0
      rw [List.foldl_cons]
      apply ih
      intro fc hfc v hv
      unfold Binning.bin at hfc
      rcases List.mem_append.mp hfc with hold | hnew
      · exact hb0 fc hold v hv
      · have hfc' : fc = ⟨p.2.name, dfTrain.rows.filterMap (fun r =>
            if r.get "_outlier_value" = 0 then some (r.get p.2.name) else none),
            p.2.n_bins, p.2.fixed_width⟩ := by
          simpa using hnew
        subst hfc'
        rcases List.mem_filterMap.mp hv with ⟨r2, hr2, hfr2⟩
        by_cases hflag : r2.get "_outlier_value" = 0
        · rw [if_pos hflag] at hfr2
          exact ⟨r2, hr2, hflag, (Option.some.inj hfr2).symm⟩
        · rw [if_neg hflag] at hfr2
          exact absurd hfr2 (by simp)
  intro fc hfc
  exact aux columns ⟨[]⟩ (by intro fc hfc; simp at hfc) fc hfc

/-! The claim theorems. -/

/-- Claim C1 (code bug evidence). The claim says calling `sample` before any
successful `fit` fails with a `ValueError` telling the caller to run `fit()`.
The guard `if not self.trained and data_train is not None:` instead raises
`NameError` on the undefined module-level name `data_train` whenever
`self.trained` is false, so the intended `ValueError` line is unreachable; a
trained model short-circuits past the guard and returns a sampled dataset.
Evaluated here at a concrete untrained model (`NameError`) and at the same
model after `fit` (a sampled dataset is recorded). -/
theorem claim_C1_code_eval :
    sampleM mC1 dfC1 none 1 false 0 = Except.error (PyErr.nameError "data_train") ∧
    fitThenSampleOk mC1 dfC1 dfC1 = true :=
  ⟨by decide, by decide⟩

/-- Claim C2 counterexample. The claim says that with
`auto_bin_require_equivalence` true, a failed equivalence check increments
the bin count and keeps the loop TUNING, and that the decrement-and-converge
step is taken only when equivalence has passed. At an iteration where
equivalence fails but the configured ratio floor is violated
(`equivPassed = false`, `minRatioTruthy = true`, `ratioBelowFloor = true`,
5 bins), the loop body instead converges with the bin count decremented to 4
(the claim predicts remaining TUNING with 6 bins). -/
theorem claim_C2_counterexample :
    auto_bin_step "x" true false false true true 5 =
      Except.ok { completed := true, nBins := 4 } ∧
    decide (auto_bin_step "x" true false false true true 5 =
      Except.ok { completed := false, nBins := 6 }) = false :=
  ⟨by decide, by decide⟩

/-- Claim C2 (amended). In the require-equivalence branch of the
`fit_and_sample` loop body with a non-empty sample: if equivalence fails and
the configured ratio floor is not violated, the bin count is incremented by
one and the loop stays TUNING; and the decrement-and-converge step is taken
whenever the ratio floor is configured and violated, regardless of the
equivalence result. -/
theorem claim_C2_amended_ok : ∀ (colName : String) (ep mt rv : Bool) (n : Int),
    (ep = false → (mt && rv) = false →
      auto_bin_step colName true false ep mt rv n = Except.ok ⟨false, n + 1⟩) ∧
    ((mt && rv) = true →
      auto_bin_step colName true false ep mt rv n = Except.ok ⟨true, n - 1⟩) := by
  intro colName ep mt rv n
  constructor
  · intro h1 h2
    simp [auto_bin_step, h1, h2]
  · intro h
    simp [auto_bin_step, h]

/-- Claim C2 witness: the amended theorem applied at concrete iterations
(equivalence failed with no ratio violation; ratio violated). -/
theorem claim_C2_witness :
    auto_bin_step "x" true false false false false 3 = Except.ok ⟨false, 4⟩ ∧
    auto_bin_step "x" true false true true true 3 = Except.ok ⟨true, 2⟩ :=
  ⟨(claim_C2_amended_ok "x" false false false 3).1 rfl rfl,
   (claim_C2_amended_ok "x" true true true 3).2 rfl⟩

/-- Claim C3. In the `fit_and_sample` loop body for a covariate with
`auto_bin_require_equivalence` false: when the ratio floor is configured
(truthy) and violated, the bin count is decremented by one and the loop
converges; otherwise the bin count is incremented by one and the loop stays
TUNING. -/
theorem claim_C3_ok : ∀ (colName : String) (se ep mt rv : Bool) (n : Int),
    ((mt && rv) = true →
      auto_bin_step colName false se ep mt rv n = Except.ok ⟨true, n - 1⟩) ∧
    ((mt && rv) = false →
      auto_bin_step colName false se ep mt rv n = Except.ok ⟨false, n + 1⟩) := by
  intro colName se ep mt rv n
  constructor <;> intro h <;> simp [auto_bin_step, h]

/-- Claim C3 witness: both branches of the theorem at concrete iterations. -/
theorem claim_C3_witness :
    auto_bin_step "x" false false false true true 3 = Except.ok ⟨true, 2⟩ ∧
    auto_bin_step "x" false false false false false 3 = Except.ok ⟨false, 4⟩ :=
  ⟨(claim_C3_ok "x" false false true true 3).1 rfl,
   (claim_C3_ok "x" false false false false 3).2 rfl⟩

/-- Claim C5. In the `fit_and_sample` loop body for a covariate with
`auto_bin_require_equivalence` true, an empty realized sample raises the
"Too many bin divisions before finding equivalence" `ValueError` before the
equivalence predicate or the ratio floor is consulted, for every value of the
remaining observations and bin count. -/
theorem claim_C5_ok : ∀ (colName : String) (ep mt rv : Bool) (n : Int),
    auto_bin_step colName true true ep mt rv n = Except.error (PyErr.valueError
      ("Too many bin divisions before finding equivalence for " ++ colName ++
       " (usually occurs when several stratification params are used).")) := by
  intro colName ep mt rv n
  rfl

/-- Claim C4 (code bug evidence). The claim says `fit` (and `fit_and_sample`)
fails with a `ValueError` when no columns were registered, with a
`ValueError` naming the missing columns when some registered name is absent,
and passes when all are present. `fit_and_sample`'s length guard and the
missing-columns branch behave as claimed, but `fit` on a fresh model raises
`AttributeError` instead: `_check_columns_present` reads
`getattr(self, "col_names")` without a default and the attribute is only
created by `add_column`, so the no-columns `ValueError` line is unreachable
from `fit`. -/
theorem claim_C4_code_eval :
    fitM Model.init dfC4x 0 1 0 = Except.error (PyErr.attributeError "col_names") ∧
    fit_and_sample_precheck Model.init =
      Except.error (PyErr.valueError "You must add at least one column before fitting.") ∧
    check_columns_present mC4.col_names ["x"] =
      Except.error (PyErr.valueError "data is missing required columns: y") ∧
    check_columns_present mC4.col_names ["x", "y"] = Except.ok () :=
  ⟨by decide, by decide, by decide, by decide⟩

/-- Claim C6. Determinism: the results of `_perturb`, `fit` and `sample` do
not depend on the incoming global numpy generator state — `_perturb` begins
with `np.random.seed(random_seed)`, and `sample_bins` takes the caller's seed
explicitly — so two runs with identical inputs, column configuration and
`random_seed` produce identical perturbed values and identical sampled
rows. -/
theorem claim_C6_ok : ∀ (colNames : List String) (seed : Nat) (df : DF)
    (g1 g2 : Rng) (m : Model) (minN : Nat) (nApprox : Option Nat) (relax : Bool),
    perturb colNames seed df g1 = perturb colNames seed df g2 ∧
    fitM m df minN seed g1 = fitM m df minN seed g2 ∧
    sampleM m df nApprox seed relax g1 = sampleM m df nApprox seed relax g2 := by
  intro colNames seed df g1 g2 m minN nApprox relax
  exact ⟨rfl, rfl, rfl⟩

/-- Claim C7. Outlier exclusion: for a registered covariate with configured
bounds, an input row whose value lies outside the closed interval
`[min_value_allowed, max_value_allowed]` is removed by `_chop_outliers`
before binning, so its row identity never appears in `data_train` (fitted by
`fit`), in `data_test`, or in the returned sample (built by `sample`); and
every value the Binner is fitted on is the value of an unflagged
`data_train` row. Row identifiers are assumed distinct, as for a pandas
index. -/
theorem claim_C7_ok (m : Model) (df : DF) (minN seed : Nat) (g : Rng)
    (nApprox : Option Nat) (relax : Bool) (p : String × ColumnSpec) (r : Row)
    (hp : p ∈ m.columns) (hr : r ∈ df.rows) (hout : rowOutside p.2 r = true)
    (hnd : (df.rows.map Row.rid).Nodup) :
    (∀ dt ∈ fit_data_train m df minN seed g,
       r.rid ∉ dt.df.rows.map Row.rid ∧
       ∀ fc ∈ dt.binning.fitted, ∀ v ∈ fc.values,
         ∃ r2 ∈ dt.df.rows, r2.get "_outlier_value" = 0 ∧ v = r2.get fc.name) ∧
    (∀ dt ∈ sample_data_test m df nApprox seed relax g,
       r.rid ∉ dt.df.rows.map Row.rid) ∧
    (∀ ds ∈ sample_data_sample m df nApprox seed relax g,
       r.rid ∉ ds.df.rows.map Row.rid) := by
  have hpipe := rid_not_mem_pipeline m df seed g p hp r hr hout hnd
  refine ⟨?_, ?_, ?_⟩
  · intro dt hdt
    have hdt' := fit_data_train_some m df minN seed g dt (Option.mem_def.mp hdt)
    subst hdt'
    constructor
    · show r.rid ∉ (dfTrainFlagged m ((perturb (m.columns.map Prod.fst) seed
        (chop_outliers m.columns df) g).1)).rows.map Row.rid
      rw [map_rid_dfTrainFlagged]
      exact hpipe
    · exact fitBinning_values m.columns _
  · intro dt hdt
    have hdt' := sample_data_test_some m df nApprox seed relax g dt
      (Option.mem_def.mp hdt)
    subst hdt'
    show r.rid ∉ ((perturb (m.columns.map Prod.fst) seed
      (chop_outliers m.columns df) g).1).rows.map Row.rid
    exact hpipe
  · intro ds hds
    obtain ⟨dfS, hsb, rfl⟩ := sample_data_sample_some m df nApprox seed relax g ds
      (Option.mem_def.mp hds)
    intro hmem
    rcases List.mem_map.mp hmem with ⟨r2, hr2, hrid⟩
    have hr2t : r2 ∈ (sampleDataTest m df seed g).df.rows :=
      mem_test_of_mem_sample_bins hsb r2 hr2
    have hr2p : r2 ∈ ((perturb (m.columns.map Prod.fst) seed
        (chop_outliers m.columns df) g).1).rows := hr2t
    exact hpipe (hrid ▸ List.mem_map_of_mem Row.rid hr2p)

/-- Claim C7 witness: the theorem applied at a trained model with bounds
`[0, 10]` on `"x"` and a test table containing the out-of-bounds row
`rowC7` (value 50). -/
theorem claim_C7_witness :
    (("x", cSpecC7) ∈ mC7t.columns ∧ rowC7 ∈ dfC7.rows ∧
      rowOutside cSpecC7 rowC7 = true ∧ (dfC7.rows.map Row.rid).Nodup) ∧
    ((∀ dt ∈ fit_data_train mC7t dfC7 0 1 0,
        rowC7.rid ∉ dt.df.rows.map Row.rid ∧
        ∀ fc ∈ dt.binning.fitted, ∀ v ∈ fc.values,
          ∃ r2 ∈ dt.df.rows, r2.get "_outlier_value" = 0 ∧ v = r2.get fc.name) ∧
     (∀ dt ∈ sample_data_test mC7t dfC7 none 1 false 0,
        rowC7.rid ∉ dt.df.rows.map Row.rid) ∧
     (∀ ds ∈ sample_data_sample mC7t dfC7 none 1 false 0,
        rowC7.rid ∉ ds.df.rows.map Row.rid)) :=
  ⟨⟨by decide, by decide, by decide, by decide⟩,
   claim_C7_ok mC7t dfC7 0 1 0 none false ("x", cSpecC7) rowC7
     (by decide) (by decide) (by decide) (by decide)⟩

/-- Claim C8. No in-place mutation of caller data: in the object-identity
view, `_chop_outliers` only allocates filtered frames, `_perturb` copies its
input before its in-place column writes, and `fit` and `sample` compose
these with further fresh allocations, so a dataframe object passed in by the
caller reads back unchanged after any of the four operations. -/
theorem claim_C8_ok (hp : Heap) (k : Handle) (d : DF) (m : Model)
    (dh : Handle) (seed : Nat) (g : Rng) (nApprox : Option Nat) (relax : Bool)
    (columns : List (String × ColumnSpec)) (colNames : List String)
    (hwf : hp.WF) (hr : hp.read k = some d) :
    ((chop_outliersH columns hp dh).1).read k = some d ∧
    ((perturbH colNames seed hp dh g).1).read k = some d ∧
    ((fitH m hp dh seed g).1).read k = some d ∧
    ((sampleH m hp dh nApprox seed relax g).1).read k = some d :=
  ⟨(chopH_inv columns hp dh ⟨hwf, hr⟩).1.2,
   (perturbH_inv colNames seed hp dh g ⟨hwf, hr⟩).1.2,
   (fitH_frame m hp dh seed g ⟨hwf, hr⟩).2,
   (sampleH_frame m hp dh nApprox seed relax g ⟨hwf, hr⟩).2⟩

/-- Claim C8 witness: the frame theorem applied at a concrete one-object heap
with a model whose covariate has both bounds configured. -/
theorem claim_C8_witness :
    (hpC8.WF ∧ hpC8.read 0 = some dfC8) ∧
    (((chop_outliersH mC8.columns hpC8 0).1).read 0 = some dfC8 ∧
     ((perturbH ["x"] 1 hpC8 0 0).1).read 0 = some dfC8 ∧
     ((fitH mC8 hpC8 0 1 0).1).read 0 = some dfC8 ∧
     ((sampleH mC8 hpC8 0 none 1 false 0).1).read 0 = some dfC8) :=
  ⟨⟨by decide, by decide⟩,
   claim_C8_ok hpC8 0 dfC8 mC8 0 1 0 none false mC8.columns ["x"]
     (by decide) (by decide)⟩

/-- Claim C9. `add_column(name, n_bins=None, ...)` stores a covariate spec
with `auto_bin` true and bin count 1, so `get_n_bins(name)` returns 1 (the
auto-binning search therefore starts from a single bin); an explicit integer
`n_bins` stores `auto_bin` false and that integer. -/
theorem claim_C9_ok : ∀ (m : Model) (nm : String) (minV maxV : Option Int)
    (fw rq : Bool) (k : Int),
    get_n_bins (add_column m nm none minV maxV fw rq) nm = some 1 ∧
    ((add_column m nm none minV maxV fw rq).columns.lookup nm).map
      ColumnSpec.auto_bin = some true ∧
    get_n_bins (add_column m nm (some k) minV maxV fw rq) nm = some k ∧
    ((add_column m nm (some k) minV maxV fw rq).columns.lookup nm).map
      ColumnSpec.auto_bin = some false := by
  intro m nm minV maxV fw rq k
  refine ⟨?_, ?_, ?_, ?_⟩ <;>
    simp [get_n_bins, add_column, lookup_upsert]

/-- Claim C10. Every `add_column` call, including re-registering an existing
name, invalidates a previously fitted model: afterwards `trained` is false
and `binning` is `None`, so a new `fit` is required before sampling. -/
theorem claim_C10_ok : ∀ (m : Model) (nm : String) (nBinsArg : Option Int)
    (minV maxV : Option Int) (fw rq : Bool),
    (add_column m nm nBinsArg minV maxV fw rq).trained = false ∧
    (add_column m nm nBinsArg minV maxV fw rq).binning = none := by
  intro m nm nBinsArg minV maxV fw rq
  exact ⟨rfl, rfl⟩

end EESampling
